import Mathlib

/-!
Verification of the tmux-namer-openai repository.

The repository holds two Python scripts, near-duplicate variants of the same
hook utility:

* `tmux-namer-openai.py` — the "root" variant, and
* `scripts/tmux-namer-openai.py` — the "scripts" variant.

This file gives a shallow embedding of both scripts in Lean and proves the
specification's testable properties about them.  Python strings are modelled
as `List Char`; Python's `None` as `Option.none`; every external effect
(standard input, the transcript file, the output of `tmux` and `ps`
subprocesses, the outcome of the HTTPS call) is an explicit input of the
function that consumes it.  Process exit and the issued `tmux rename-window`
commands are modelled as the returned value of `main`.
-/

/-- Python strings are modelled as lists of characters. -/
abbrev Str := List Char

/-- Python whitespace, as used by `str.strip()` and `str.split()` with no
separator: space, tab, newline, carriage return, vertical tab, form feed. -/
def isWs (c : Char) : Bool :=
  c = ' ' || c = '\t' || c = '\n' || c = '\r' || c = '\x0b' || c = '\x0c'

/-- Python `s.strip()`: remove leading and trailing whitespace. -/
def strip (s : Str) : Str :=
  ((s.dropWhile isWs).reverse.dropWhile isWs).reverse

/-- Python `l[-n:]`: the last `n` elements of a list (all of it when shorter). -/
def lastN (n : Nat) (l : List α) : List α := l.drop (l.length - n)

/-- Python `sep.join(parts)`. -/
def joinSep (sep : Str) : List Str → Str
  | [] => []
  | [x] => x
  | x :: y :: xs => x ++ sep ++ joinSep sep (y :: xs)

/-- Worker of `splitWs`; `acc` is the reversed word currently being read. -/
def splitWsAux : Str → Str → List Str
  | [], acc => if acc = [] then [] else [acc.reverse]
  | c :: rest, acc =>
    if isWs c then
      if acc = [] then splitWsAux rest []
      else acc.reverse :: splitWsAux rest []
    else splitWsAux rest (c :: acc)

/-- Python `s.split()` (no separator): split on runs of whitespace,
discarding empty pieces. -/
def splitWs (s : Str) : List Str := splitWsAux s []

/-- Python `s.split(None, 1)`: split on whitespace with at most one split;
the remainder keeps its internal and trailing spacing. -/
def splitWs1 (s : Str) : List Str :=
  let s1 := s.dropWhile isWs
  match s1 with
  | [] => []
  | _ :: _ =>
    let w := s1.takeWhile (fun d => !isWs d)
    let rest := (s1.dropWhile (fun d => !isWs d)).dropWhile isWs
    if rest = [] then [w] else [w, rest]

/-- The character class `[a-zA-Z0-9 ]` kept by the root variant's `re.sub`
in `sanitize_name`. -/
def allowedRoot (c : Char) : Bool := c.isAlpha || c.isDigit || c = ' '

/-- The character class `[a-zA-Z0-9\- ]` kept by the scripts variant's
`re.sub` in `sanitize_name`. -/
def allowedScripts (c : Char) : Bool := c.isAlpha || c.isDigit || c = '-' || c = ' '

/-- The string `"user"`, the role/type tag of user-authored turns. -/
def userRole : Str := "user".toList

/-- Truthiness of an optional string (Python `if not x` on a `str`-or-`None`
value): `none` and the empty string are falsy. -/
def truthy (o : Option Str) : Bool :=
  match o with
  | none => false
  | some s => s ≠ []

/-- Python `s.startswith('/')`. -/
def startsSlash : Str → Bool
  | '/' :: _ => true
  | _ => false

/-- The pane-matching loop shared by both variants' `get_tmux_window`:
iterate over the lines of `tmux list-panes -a -F '#{pane handle} #{session}:#{window id}'`
output, split each line on whitespace, and return the second field of the
first line whose first field equals the caller's handle. -/
def findPane : List Str → Str → Option Str
  | [], _ => none
  | line :: rest, k =>
    match splitWs line with
    | p0 :: p1 :: _ => if p0 = k then some p1 else findPane rest k
    | _ => findPane rest k

namespace Root

/-- Root variant `sanitize_name`: keep only `[a-zA-Z0-9 ]`, truncate to 40
characters, then strip surrounding whitespace. -/
def sanitize_name (name : Str) : Str :=
  if name = [] then []
  else strip ((name.filter allowedRoot).take 40)

end Root

namespace Scripts

/-- Scripts variant `sanitize_name`: keep only `[a-zA-Z0-9\- ]`, truncate to
25 characters, then strip surrounding whitespace. -/
def sanitize_name (name : Str) : Str :=
  if name = [] then []
  else strip ((name.filter allowedScripts).take 25)

end Scripts

/-! ## Conversation content model

A JSON `content` value as it appears in a turn: either a plain string, a
list of typed blocks (of which only the ones tagged `"text"` matter — a
block is modelled by whether it is a dict tagged `"text"` and, if so, by
its `text` field, which defaults to the empty string), or anything else. -/

/-- One element of a block-list `content` value. -/
inductive ContentItem where
  /-- A dict with `type == "text"`; `s` is its `text` field. -/
  | text (s : Str)
  /-- A non-dict element, or a dict whose `type` is not `"text"`. -/
  | other
deriving DecidableEq

/-- A turn's `content` value. -/
inductive Content where
  /-- A plain string. -/
  | str (s : Str)
  /-- A list of typed blocks. -/
  | blocks (items : List ContentItem)
  /-- Any other JSON value (also stands for a missing field's default). -/
  | other
deriving DecidableEq

/-- The `text` fields of the `"text"`-typed blocks, in order
(the generator expression `item.get('text','') for item in content if ...`). -/
def blockTexts (items : List ContentItem) : List Str :=
  items.filterMap (fun it =>
    match it with
    | .text s => some s
    | .other => none)

namespace Scripts

/-- A parsed JSONL transcript entry of the scripts variant:
`etype` models `entry.get('type')` and `content` models
`entry.get('message', {}).get('content', '')`. -/
structure Entry where
  etype : Str
  content : Content
deriving DecidableEq

/-- One line of the transcript file, as the scripts variant's
`read_transcript` sees it: blank (skipped), unparseable (raises
`json.JSONDecodeError`, caught by the surrounding `try`), or a parsed
entry. -/
inductive TLine where
  | blank
  | bad
  | entry (e : Entry)
deriving DecidableEq

/-- Text extraction of `read_transcript` for one entry's content:
a plain string is stripped; a block list is space-joined over its
`"text"`-typed blocks and stripped; anything else gives the empty
string. -/
def extractText : Content → Str
  | .str s => strip s
  | .blocks items => strip (joinSep [' '] (blockTexts items))
  | .other => []

/-- The loop body of `read_transcript`, with the `user_count` and
`questions` accumulators explicit.  A `bad` line raises
`json.JSONDecodeError`, which the surrounding `try` turns into returning
whatever was accumulated so far. -/
def read_transcript_go : List TLine → Nat → List Str → Nat × List Str
  | [], cnt, qs => (cnt, lastN 5 qs)
  | .blank :: rest, cnt, qs => read_transcript_go rest cnt qs
  | .bad :: _, cnt, qs => (cnt, lastN 5 qs)
  | .entry e :: rest, cnt, qs =>
    if e.etype = userRole then
      let t := extractText e.content
      if t = [] then read_transcript_go rest (cnt + 1) qs
      else read_transcript_go rest (cnt + 1) (qs ++ [t.take 200])
    else read_transcript_go rest cnt qs

/-- Scripts variant `read_transcript`: `none` models a file that cannot be
opened (`OSError` at `open`, caught), yielding `(0, [])`; otherwise the
lines are processed in order.  The result is the user-turn count and the
last five recorded questions. -/
def read_transcript : Option (List TLine) → Nat × List Str
  | none => (0, [])
  | some lines => read_transcript_go lines 0 []

end Scripts

namespace Root

/-- A message of the `conversation` array the root variant reads from the
hook data: `role` models `message.get('role')` and `content` models
`message.get('content', [])`. -/
structure RootMsg where
  role : Str
  content : Content
deriving DecidableEq

/-- The inner-loop test of `extract_user_questions` for one block:
a `"text"`-typed dict whose stripped text is non-empty contributes that
stripped text. -/
def itemText : ContentItem → Option Str
  | .text s => let t := strip s; if t = [] then none else some t
  | .other => none

/-- The questions one message contributes in `extract_user_questions`:
only `user`-role messages with block-list content contribute, one question
per qualifying block.  (Iterating a plain-string content in Python yields
one-character strings, which fail the `isinstance(item, dict)` test, so a
plain string contributes nothing.) -/
def msgTexts (m : RootMsg) : List Str :=
  if m.role = userRole then
    match m.content with
    | .blocks items => items.filterMap itemText
    | _ => []
  else []

/-- The loop of `extract_user_questions` with its `questions` accumulator
explicit. -/
def extract_user_questions_go : List RootMsg → List Str → List Str
  | [], qs => lastN 3 qs
  | m :: rest, qs => extract_user_questions_go rest (qs ++ msgTexts m)

/-- Root variant `extract_user_questions`: walk the conversation and return
the last three recorded question texts.  (Note: no user-turn count is
computed, and `questions[-3:] if questions else []` equals the last three
elements in every case.) -/
def extract_user_questions (conversation : List RootMsg) : List Str :=
  extract_user_questions_go conversation []

end Root

/-! ## External call model

The outcome of the single HTTPS call to the chat-completions endpoint is an
explicit input.  The cost/token bookkeeping of the root variant is numeric
logging only (floating point, never read back); only the presence of a
numeric `cost` is modelled — it decides whether `log_cost` can format its
line — together with the shape of the produced log line. -/

/-- Outcome of the HTTPS request, as seen by the calling code. -/
inductive NetOutcome where
  /-- A 2xx response whose body parses and holds
  `choices[0].message.content`. -/
  | ok (content : Str)
  /-- A non-2xx response (`urllib.error.HTTPError`).  The root variant
  tries to replace its default error text with the message found in the
  response body: `bodyMsg = some m` models a body whose
  `error.message` field substitutes the text `m` — possibly the empty
  string; `m = []` also stands for the other falsy substitutions (`null`,
  `0`, ...), which the consuming code treats identically.  `bodyMsg = none`
  models an unparseable body or one without such a field, where the inner
  `except: pass` keeps the default text. -/
  | httpErr (code : Nat) (bodyMsg : Option Str)
  /-- A network failure (`urllib.error.URLError`). -/
  | urlErr
  /-- The 10-second timeout elapsing. -/
  | timeoutErr
  /-- A 2xx response whose body is malformed JSON or lacks the expected
  fields. -/
  | badBody
deriving DecidableEq

/-- Whether the outcome is one of the failure cases. -/
def NetOutcome.isFail : NetOutcome → Bool
  | .ok _ => false
  | _ => true

/-- The one failure shape whose reported error text is falsy: a non-2xx
response whose body substitutes an empty (or otherwise falsy) error
message. -/
def NetOutcome.emptyHttpMsg : NetOutcome → Bool
  | .httpErr _ (some []) => true
  | _ => false

/-- The text-generation call failed: the credential is absent or the
request itself failed (timeout, network error, non-2xx status, malformed
body). -/
def apiFailure (key : Option Str) (net : NetOutcome) : Prop :=
  key = none ∨ net.isFail = true

namespace Root

/-- Fixed error text `"OPENAI_API_KEY not set"`. -/
def keyNotSetMsg : Str := "OPENAI_API_KEY not set".toList

/-- Default error text of the `HTTPError` branch,
`f"HTTP {e.code}: {e.reason}"` (the reason text is immaterial and elided);
it is nonempty, and used only when the response body does not substitute
its own message. -/
def httpErrMsg (code : Nat) : Str := "HTTP ".toList ++ (toString code).toList

/-- Error text of the `URLError` branch (`f"Network error: {e.reason}"`). -/
def urlErrMsg : Str := "Network error".toList

/-- Error text of the timeout, reported through the generic
`except Exception` branch as `str(e)`. -/
def timeoutMsg : Str := "timed out".toList

/-- Error text of a malformed 2xx body, reported through the generic
`except Exception` branch as `str(e)`. -/
def badBodyMsg : Str := "Expecting value".toList

/-- The 5-tuple `call_openai_responses` returns, reduced to what the rest
of the program inspects: the produced name, the error text, and whether
`cost` is a number (on failure the source returns `cost = None`; the
numeric value and the token counts are logging data only). -/
structure ApiResult where
  name : Option Str
  error : Option Str
  cost : Bool
deriving DecidableEq

/-- Root variant `call_openai_responses`.  On a non-2xx response the
error text is the message substituted from the response body when one is
found (`e.read()` parses and `error.message` exists — that message may be
empty), and the default `f"HTTP {e.code}: {e.reason}"` text otherwise.
The prompt built from `questions` (or, when there are none, from the
working directory name) only shapes the request body, so it does not
appear in the result. -/
def call_openai_responses (_questions : List Str) (key : Option Str)
    (net : NetOutcome) : ApiResult :=
  match key with
  | none => ⟨none, some keyNotSetMsg, false⟩
  | some _ =>
    match net with
    | .ok content => ⟨some (strip content), none, true⟩
    | .httpErr code bodyMsg => ⟨none, some (bodyMsg.getD (httpErrMsg code)), false⟩
    | .urlErr => ⟨none, some urlErrMsg, false⟩
    | .timeoutErr => ⟨none, some timeoutMsg, false⟩
    | .badBody => ⟨none, some badBodyMsg, false⟩

end Root

namespace Scripts

/-- The `f"Project directory: {cwd}"` section of the scripts variant's
prompt. -/
def projectLine (cwd : Str) : Str := "Project directory: ".toList ++ cwd

/-- The `f"Other tmux tabs already open: [...]"` section. -/
def tabsLine (otherWindows : List Str) : Str :=
  "Other tmux tabs already open: [".toList
    ++ joinSep ", ".toList otherWindows ++ "]".toList

/-- The `f"What the user is working on:\n..."` section. -/
def questionsLine (questions : List Str) : Str :=
  "What the user is working on:\n".toList
    ++ joinSep ['\n'] (questions.map (fun q => "- ".toList ++ q))

/-- The `parts` list built in `call_openai`: the project-directory section
always, the open-tabs section when other windows exist, and the user-message
section when recent user texts exist. -/
def promptSections (cwd : Str) (otherWindows questions : List Str) : List Str :=
  [projectLine cwd]
    ++ (if otherWindows = [] then [] else [tabsLine otherWindows])
    ++ (if questions = [] then [] else [questionsLine questions])

/-- The full instruction sent by `call_openai`: fixed header, the joined
sections, and the fixed rule text. -/
def buildPrompt (cwd : Str) (otherWindows questions : List Str) : Str :=
  "Generate a short, specific tmux tab name for this coding session.\n\n".toList
    ++ joinSep ['\n'] (promptSections cwd otherWindows questions)
    ++ "\n\nRules:\n- Exactly 2 words, lowercase, joined by hyphen\n- Must describe the SPECIFIC task, not generic work\n- Must be DIFFERENT from the other open tab names\n- Use the project directory and user messages to pick something descriptive\n- NO generic names like: code-session, coding-session, new-session, dev-work\n- Good examples: tmux-naming, fix-auth, api-routes, dark-mode, landing-css, db-migrate\nOutput ONLY the tab name, nothing else:".toList

/-- Scripts variant `call_openai`: `None` without a credential; the bare
`except` maps every request failure to `None`; a well-formed response
yields the stripped generated text. -/
def call_openai (questions otherWindows : List Str) (cwd : Str)
    (key : Option Str) (net : NetOutcome) : Option Str :=
  match key with
  | none => none
  | some _ =>
    let _prompt := buildPrompt cwd otherWindows questions
    match net with
    | .ok content => some (strip content)
    | _ => none

end Scripts

/-- Python `s.split(sep)` for a one-character separator, keeping empty
pieces (so the result always has at least one element). -/
def splitOnChar (sep : Char) : Str → List Str
  | [] => [[]]
  | c :: rest =>
    match splitOnChar sep rest with
    | [] => [[]]
    | r :: rs => if c = sep then [] :: r :: rs else (c :: r) :: rs

/-- Python `s.rstrip('/')`. -/
def rstripSlash (s : Str) : Str :=
  (s.reverse.dropWhile (fun c => c = '/')).reverse

/-- The outcome of one invocation: the process exit code, and the
`tmux rename-window` commands issued, each as a
`(target window, new name)` pair.  `logLines` records what the root
variant's `log_cost` appends to its cost log (the scripts variant never
logs). -/
structure MainOut where
  exitCode : Nat
  renames : List (Str × Str)
  logLines : List Str
deriving DecidableEq

/-- Exit 0 with no rename and no log line. -/
def MainOut.noop : MainOut := ⟨0, [], []⟩

namespace Root

/-- Root variant `log_cost`, reduced to the line it appends (the timestamp,
escaping, and numeric values are not modelled).  Its own `if error:` is a
truthiness test; on the non-error branch it formats `f'cost=${cost:.6f}'`,
which raises an uncaught `TypeError` when `cost` is `None` — returned here
as `none` (`hasCost` says whether `cost` is a number).  Filesystem failures
of the `mkdir`/`open`/`write` calls are outside the model. -/
def log_cost (name : Str) (hasCost : Bool) (error : Option Str) : Option Str :=
  if truthy error then some ("error=".toList ++ error.getD [])
  else if hasCost then some ("name=".toList ++ name)
  else none

/-- Error text logged when standard input is not valid JSON. -/
def invalidStdinMsg : Str := "Invalid JSON from stdin".toList

/-- Root variant `get_tmux_window`: require a truthy `TMUX` environment
variable; take the parent process's terminal from `ps -o tty= -p ppid`
(`none` models a nonzero `ps` exit), strip it, fail on an empty result,
normalize it to an absolute `/dev/...` path, and look it up in the
`tmux list-panes` output (`none` models a failing `tmux` call). -/
def get_tmux_window (tmux : Option Str) (psTty : Option Str)
    (paneLines : Option (List Str)) : Option Str :=
  if truthy tmux = false then none
  else
    match psTty with
    | none => none
    | some out =>
      let tty := strip out
      if tty = [] then none
      else
        let tty1 := if startsSlash tty then tty else "/dev/".toList ++ tty
        match paneLines with
        | none => none
        | some lines => findPane lines tty1

/-- The external inputs of one root-variant invocation. -/
structure Env where
  /-- The `TMUX` environment variable. -/
  tmux : Option Str
  /-- Stdout of `ps -o tty= -p ppid` (`none`: nonzero exit). -/
  psTty : Option Str
  /-- Lines of `tmux list-panes -a` output (`none`: nonzero exit). -/
  paneLines : Option (List Str)
  /-- The `conversation` array of the stdin hook JSON (`none`: stdin was
  not valid JSON; a missing key defaults to the empty array). -/
  stdin : Option (List RootMsg)
  /-- The `OPENAI_API_KEY` environment variable. -/
  key : Option Str
  /-- Outcome of the HTTPS call. -/
  net : NetOutcome

/-- Tail of the root variant's `main` once the API result is in hand:
`if error:` is a truthiness test — a truthy error is logged and the process
exits 0; otherwise the name is sanitized (`sanitize_name(None)` gives the
empty string) and `log_cost` runs before the rename.  When the error is
falsy but present (empty substituted message), `cost` is `None` there, so
`log_cost` raises an uncaught `TypeError`: the detached process dies with
a traceback — exit code 1, no log line, and the rename is never reached.
Otherwise the window is renamed when the name is non-empty (a failing
rename command is caught and ignored). -/
def mainWithApi (target : Str) (res : ApiResult) : MainOut :=
  if truthy res.error then ⟨0, [], [(log_cost [] false res.error).getD []]⟩
  else
    match log_cost (sanitize_name (res.name.getD [])) res.cost none with
    | none => ⟨1, [], []⟩
    | some line =>
      ⟨0,
       if sanitize_name (res.name.getD []) = [] then []
       else [(target, sanitize_name (res.name.getD []))],
       [line]⟩

/-- Tail of the root variant's `main` after stdin parsed: extract the
questions, call the API, and continue with the result. -/
def mainWithHook (env : Env) (target : Str) (conversation : List RootMsg) : MainOut :=
  mainWithApi target
    (call_openai_responses (extract_user_questions conversation) env.key env.net)

/-- Tail of the root variant's `main` after the window was found: parse
stdin (a JSON error is logged and the process exits 0), then continue. -/
def mainWithWindow (env : Env) (target : Str) : MainOut :=
  match env.stdin with
  | none => ⟨0, [], [(log_cost [] false (some invalidStdinMsg)).getD []]⟩
  | some conversation => mainWithHook env target conversation

/-- Root variant `main` (the continuation after `fork_and_exit`; the parent
process exits 0 immediately): exit silently when no target window resolves,
otherwise continue with stdin. -/
def main (env : Env) : MainOut :=
  match get_tmux_window env.tmux env.psTty env.paneLines with
  | none => MainOut.noop
  | some target => mainWithWindow env target

end Root

namespace Scripts

/-- Scripts variant `get_tmux_window`: require a truthy `TMUX` variable and
a truthy `TMUX_PANE` pane identifier, then look the pane id up in the
`tmux list-panes` output (`none` models a failing `tmux` call). -/
def get_tmux_window (tmux : Option Str) (tmuxPane : Option Str)
    (paneLines : Option (List Str)) : Option Str :=
  if truthy tmux = false then none
  else
    match tmuxPane with
    | none => none
    | some p =>
      if p = [] then none
      else
        match paneLines with
        | none => none
        | some lines => findPane lines p

/-- Scripts variant `get_other_window_names`: from the
`tmux list-windows -a` lines (`none`: nonzero exit, caught, giving `[]`),
split each line on whitespace at most once and keep the name part of every
line whose `session:window` field differs from the current target. -/
def get_other_window_names (windowLines : Option (List Str)) (current : Str) :
    List Str :=
  match windowLines with
  | none => []
  | some lines =>
    lines.filterMap (fun line =>
      match splitWs1 line with
      | [p0, p1] => if p0 = current then none else some p1
      | _ => none)

/-- Scripts variant `get_cwd`: last two path components of `$PWD` (or the
process working directory), joined by `/`. -/
def get_cwd (cwd : Str) : Str :=
  let parts := splitOnChar '/' (rstripSlash cwd)
  if parts.length ≥ 2 then joinSep ['/'] (lastN 2 parts)
  else parts.getLastD []

/-- The cadence gate of the scripts variant's `main` (its two early-exit
tests, lines 193–197): proceed on the first user message, then every third
one after. -/
def gate (msg_count : Nat) : Bool :=
  if msg_count = 0 then false
  else if msg_count > 1 ∧ msg_count % 3 ≠ 0 then false
  else true

/-- The external inputs of one scripts-variant invocation. -/
structure Env where
  /-- Parsed stdin: `none` when stdin is not valid JSON; otherwise the
  hook's `transcript_path` value (`some none` models a missing, `None` or
  empty — i.e. falsy — path). -/
  stdin : Option (Option Str)
  /-- The `TMUX` environment variable. -/
  tmux : Option Str
  /-- The `TMUX_PANE` environment variable. -/
  tmuxPane : Option Str
  /-- Lines of `tmux list-panes -a` output (`none`: nonzero exit). -/
  paneLines : Option (List Str)
  /-- The transcript file named by `transcript_path` (`none`: unreadable). -/
  transcript : Option (List TLine)
  /-- Lines of `tmux list-windows -a` output (`none`: nonzero exit). -/
  windowLines : Option (List Str)
  /-- The working directory (`$PWD` or `os.getcwd()`). -/
  pwd : Str
  /-- The `OPENAI_API_KEY` environment variable. -/
  key : Option Str
  /-- Outcome of the HTTPS call. -/
  net : NetOutcome

/-- Tail of the scripts variant's `main` after the cadence gate passed:
gather the prompt context, call the API; a falsy result exits 0; otherwise
the name is sanitized and — when non-empty — the window is renamed (a
failing rename command is caught and ignored). -/
def mainAfterGate (env : Env) (target : Str) (questions : List Str) : MainOut :=
  match call_openai questions (get_other_window_names env.windowLines target)
      (get_cwd env.pwd) env.key env.net with
  | none => MainOut.noop
  | some raw =>
    if raw = [] then MainOut.noop
    else
      ⟨0,
       if sanitize_name raw = [] then [] else [(target, sanitize_name raw)],
       []⟩

/-- Tail of the scripts variant's `main` after the window was found: read
the transcript and apply the cadence gate — exit 0 on zero user messages,
and on a count that is neither 1 nor a multiple of 3. -/
def mainAfterWindow (env : Env) (target : Str) : MainOut :=
  if (read_transcript env.transcript).1 = 0 then MainOut.noop
  else if (read_transcript env.transcript).1 > 1 ∧
      (read_transcript env.transcript).1 % 3 ≠ 0 then MainOut.noop
  else mainAfterGate env target (read_transcript env.transcript).2

/-- Scripts variant `main`: exit silently on bad stdin JSON, on a falsy
`transcript_path`, and (after `fork_and_exit`, whose parent exits 0
immediately) when no target window resolves; otherwise continue. -/
def main (env : Env) : MainOut :=
  match env.stdin with
  | none => MainOut.noop
  | some none => MainOut.noop
  | some (some _) =>
    match get_tmux_window env.tmux env.tmuxPane env.paneLines with
    | none => MainOut.noop
    | some target => mainAfterWindow env target

end Scripts

/-! ## Statements taken from the specification's own words

`claimReader` renders, word for word, the Transcript Reader the
specification describes for the scripts variant (K = 5), to be compared
with the `read_transcript` embedded from the source: count the `user`
turns; extract a plain-string content by trimming it, and a block-sequence
content by concatenating the text of its text-typed blocks, trimming, and
truncating to at most 200 units; output the count with the most recent
five non-empty extracted texts, oldest to newest. -/

/-- Per-turn text extraction as the specification words it. -/
def claimExtract : Content → Str
  | .str s => strip s
  | .blocks items => (strip (joinSep [] (blockTexts items))).take 200
  | .other => []

/-- The Transcript Reader as the specification words it (scripts variant,
K = 5). -/
def claimReader (entries : List Scripts.Entry) : Nat × List Str :=
  (entries.countP (fun e => e.etype = userRole),
   lastN 5 (entries.filterMap (fun e =>
     if e.etype = userRole then
       let t := claimExtract e.content
       if t = [] then none else some t
     else none)))

/-- The question a user-typed entry records in `read_transcript`
(`none` when the extracted text is empty): the stripped text truncated to
its first 200 characters. -/
def Scripts.entryQuestion (e : Scripts.Entry) : Option Str :=
  if e.etype = userRole then
    let t := Scripts.extractText e.content
    if t = [] then none else some (t.take 200)
  else none

/-! ## Concrete inputs used by witnesses and counterexamples -/

/-- The pane list of the specification's worked example. -/
def panesEx : List (Str × Str) :=
  [("/dev/pts/3".toList, "sessA:@1".toList),
   ("/dev/pts/7".toList, "sessA:@2".toList)]

/-- A root-variant invocation whose conversation has zero user turns but
whose window resolution and API call both succeed. -/
def rootZeroTurnsEnv : Root.Env :=
  { tmux := some "/tmp/tmux-0/default,42,0".toList
    psTty := some "pts/3\n".toList
    paneLines := some ["/dev/pts/3 sessA:@1".toList]
    stdin := some []
    key := some "sk-test".toList
    net := .ok "hello world".toList }

/-- A scripts-variant invocation whose transcript holds no user turns. -/
def scriptsZeroTurnsEnv : Scripts.Env :=
  { stdin := some (some "/tmp/transcript.jsonl".toList)
    tmux := some "/tmp/tmux-0/default,42,0".toList
    tmuxPane := some "%5".toList
    paneLines := some ["%5 sessA:@2".toList]
    transcript := some []
    windowLines := some []
    pwd := "/home/u/proj".toList
    key := some "sk-test".toList
    net := .ok "fix-auth".toList }

/-- A scripts-variant invocation whose transcript holds two user turns
(a count the cadence gate denies). -/
def scriptsTwoTurnsEnv : Scripts.Env :=
  { stdin := some (some "/tmp/transcript.jsonl".toList)
    tmux := some "/tmp/tmux-0/default,42,0".toList
    tmuxPane := some "%5".toList
    paneLines := some ["%5 sessA:@2".toList]
    transcript := some [.entry ⟨userRole, .str "first".toList⟩,
                        .entry ⟨userRole, .str "second".toList⟩]
    windowLines := some []
    pwd := "/home/u/proj".toList
    key := some "sk-test".toList
    net := .ok "fix-auth".toList }

/-- A root-variant invocation whose API call fails for want of a
credential. -/
def rootNoKeyEnv : Root.Env :=
  { rootZeroTurnsEnv with key := none }

/-- A root-variant invocation whose API call draws an HTTP 500 whose JSON
body is `error.message` with the empty string — the error text the code
substitutes is falsy. -/
def rootEmptyHttpMsgEnv : Root.Env :=
  { rootZeroTurnsEnv with net := .httpErr 500 (some []) }

/-- A scripts-variant invocation whose API call times out. -/
def scriptsTimeoutEnv : Scripts.Env :=
  { scriptsTwoTurnsEnv with
    transcript := some [.entry ⟨userRole, .str "first".toList⟩]
    net := .timeoutErr }

/-- A 201-character text, one character beyond the 200-character
truncation bound. -/
def longText : Str := List.replicate 201 'a'

/-- A pane record as `tmux list-panes -a -F '#{pane handle} #{session}:#{window id}'`
produces it: the pane's handle and its `session:window` identifier, both
necessarily nonempty and free of whitespace. -/
def wfPane (p : Str × Str) : Prop :=
  p.1 ≠ [] ∧ p.2 ≠ [] ∧ (∀ c ∈ p.1, isWs c = false) ∧ (∀ c ∈ p.2, isWs c = false)

instance (p : Str × Str) : Decidable (wfPane p) := by
  unfold wfPane
  infer_instance

/-- The output line `tmux list-panes` prints for a pane. -/
def paneLine (p : Str × Str) : Str := p.1 ++ ' ' :: p.2

/-! ## Properties of `strip` -/

/-- Stripping only removes characters: the result is a sublist. -/
theorem strip_sublist (s : Str) : List.Sublist (strip s) s := by
  have h1 : List.Sublist (s.dropWhile isWs) s := List.dropWhile_sublist isWs
  have h2 : List.Sublist ((s.dropWhile isWs).reverse.dropWhile isWs)
      (s.dropWhile isWs).reverse :=
    List.dropWhile_sublist isWs
  have h3 := h2.reverse
  rw [List.reverse_reverse] at h3
  exact h3.trans h1

/-- A list whose head fails the predicate is unchanged by `dropWhile`. -/
theorem dropWhile_eq_self_of_head (p : α → Bool) (l : List α)
    (h : ∀ a, l.head? = some a → p a = false) : l.dropWhile p = l := by
  cases l with
  | nil => rfl
  | cons a t =>
    have ha := h a rfl
    simp [List.dropWhile_cons, ha]

/-- The head of a `dropWhile` result fails the predicate. -/
theorem head?_dropWhile_false (p : α → Bool) (l : List α) :
    ∀ a, (l.dropWhile p).head? = some a → p a = false := by
  intro a ha
  have h := List.head?_dropWhile_not p l
  rw [ha] at h
  exact h

/-- A nonempty `dropWhile` result keeps the original last element. -/
theorem getLast?_dropWhile_of_ne_nil (p : α → Bool) (l : List α)
    (h : l.dropWhile p ≠ []) : (l.dropWhile p).getLast? = l.getLast? := by
  induction l with
  | nil => simp at h
  | cons a t ih =>
    by_cases hpa : p a
    · rw [List.dropWhile_cons_of_pos hpa] at h ⊢
      have ht : t ≠ [] := by
        intro e
        rw [e] at h
        simp at h
      rw [ih h]
      cases t with
      | nil => exact absurd rfl ht
      | cons b t' => rw [List.getLast?_cons_cons]
    · rw [List.dropWhile_cons_of_neg hpa]

/-- The first character of a stripped string is not whitespace. -/
theorem strip_head_not_ws (s : Str) :
    ∀ a, (strip s).head? = some a → isWs a = false := by
  intro a ha
  rw [strip, List.head?_reverse] at ha
  have hne : (s.dropWhile isWs).reverse.dropWhile isWs ≠ [] := by
    intro e
    rw [e] at ha
    simp at ha
  rw [getLast?_dropWhile_of_ne_nil _ _ hne, List.getLast?_reverse] at ha
  exact head?_dropWhile_false _ _ a ha

/-- The last character of a stripped string is not whitespace. -/
theorem strip_getLast_not_ws (s : Str) :
    ∀ a, (strip s).getLast? = some a → isWs a = false := by
  intro a ha
  rw [strip, List.getLast?_reverse] at ha
  exact head?_dropWhile_false _ _ a ha

/-- `strip` is idempotent. -/
theorem strip_idem (s : Str) : strip (strip s) = strip s := by
  have h1 : (strip s).dropWhile isWs = strip s :=
    dropWhile_eq_self_of_head _ _ (strip_head_not_ws s)
  have h2 : (strip s).reverse.dropWhile isWs = (strip s).reverse := by
    apply dropWhile_eq_self_of_head
    intro a ha
    rw [List.head?_reverse] at ha
    exact strip_getLast_not_ws s a ha
  show (((strip s).dropWhile isWs).reverse.dropWhile isWs).reverse = strip s
  rw [h1, h2, List.reverse_reverse]

/-! ## Properties of the two `sanitize_name` variants -/

/-- The filter-truncate-strip core keeps only allowed characters and at
most `n` of them. -/
theorem sanitize_core_all (p : Char → Bool) (n : Nat) (s : Str) :
    (∀ c ∈ strip ((s.filter p).take n), p c) ∧
      (strip ((s.filter p).take n)).length ≤ n := by
  constructor
  · intro c hc
    have h1 : c ∈ (s.filter p).take n := (strip_sublist _).subset hc
    exact (List.mem_filter.mp (List.mem_of_mem_take h1)).2
  · refine (strip_sublist _).length_le.trans ?_
    rw [List.length_take]
    omega

/-- The filter-truncate-strip core is idempotent. -/
theorem sanitize_core_idem (p : Char → Bool) (n : Nat) (x : Str) :
    strip (((strip ((x.filter p).take n)).filter p).take n)
      = strip ((x.filter p).take n) := by
  set t := strip ((x.filter p).take n) with ht
  have hfilter : t.filter p = t :=
    List.filter_eq_self.mpr (sanitize_core_all p n x).1
  have hlen : t.length ≤ n := (sanitize_core_all p n x).2
  rw [hfilter, List.take_of_length_le hlen, ht, strip_idem]

/-- Any function of the shape of the two `sanitize_name` variants is
idempotent. -/
theorem sanitize_like_idem (p : Char → Bool) (n : Nat) (f : Str → Str)
    (hf : ∀ y, f y = if y = [] then [] else strip ((y.filter p).take n))
    (s : Str) : f (f s) = f s := by
  rw [hf (f s), hf s]
  by_cases hs : s = []
  · simp [hs]
  · rw [if_neg hs]
    by_cases htt : strip ((s.filter p).take n) = []
    · simp [htt]
    · rw [if_neg htt]
      exact sanitize_core_idem p n s

/-- C5: for every input string, each variant's `sanitize_name` produces only
characters of its allow-list (letters, digits, space for the root variant;
letters, digits, space, hyphen for the scripts variant) and at most its
declared maximum length (40 for the root variant, 25 for the scripts
variant). -/
theorem sanitize_name_allowlist_length (s : Str) :
    ((∀ c ∈ Root.sanitize_name s, allowedRoot c) ∧
      (Root.sanitize_name s).length ≤ 40) ∧
    ((∀ c ∈ Scripts.sanitize_name s, allowedScripts c) ∧
      (Scripts.sanitize_name s).length ≤ 25) := by
  constructor
  · unfold Root.sanitize_name
    split
    · simp
    · exact sanitize_core_all allowedRoot 40 s
  · unfold Scripts.sanitize_name
    split
    · simp
    · exact sanitize_core_all allowedScripts 25 s

/-- C6: both variants' `sanitize_name` are idempotent. -/
theorem sanitize_name_idempotent (s : Str) :
    Root.sanitize_name (Root.sanitize_name s) = Root.sanitize_name s ∧
    Scripts.sanitize_name (Scripts.sanitize_name s) = Scripts.sanitize_name s :=
  ⟨sanitize_like_idem allowedRoot 40 Root.sanitize_name (fun _ => rfl) s,
   sanitize_like_idem allowedScripts 25 Scripts.sanitize_name (fun _ => rfl) s⟩

/-! ## C1 — the cadence gate of the scripts variant -/

/-- C1: under the scripts variant's transcript-length cadence policy with
period 3, a rename is permitted exactly when the user-turn count is 1 or a
positive multiple of 3; counts 1..6 give the permit pattern
allow, deny, allow, deny, deny, allow; and whenever the gate denies, the
invocation issues no rename command. -/
theorem cadence_gate_period3 :
    (∀ n : Nat, Scripts.gate n = true ↔ (n = 1 ∨ (0 < n ∧ n % 3 = 0))) ∧
    ((List.range 6).map (fun i => Scripts.gate (i + 1))
        = [true, false, true, false, false, true]) ∧
    (∀ env : Scripts.Env,
      Scripts.gate (Scripts.read_transcript env.transcript).1 = false →
        (Scripts.main env).renames = []) := by
  refine ⟨?_, by decide, ?_⟩
  · intro n
    unfold Scripts.gate
    by_cases h0 : n = 0
    · simp [h0]
    · rw [if_neg h0]
      by_cases h1 : n > 1 ∧ n % 3 ≠ 0
      · rw [if_pos h1]
        simp only [Bool.false_eq_true, false_iff]
        omega
      · rw [if_neg h1]
        have hn : n = 1 ∨ (0 < n ∧ n % 3 = 0) := by omega
        simp [hn]
  · intro env h
    unfold Scripts.gate at h
    rcases hstdin : env.stdin with _ | tp
    · simp [Scripts.main, hstdin, MainOut.noop]
    · rcases tp with _ | path
      · simp [Scripts.main, hstdin, MainOut.noop]
      · rcases hw : Scripts.get_tmux_window env.tmux env.tmuxPane env.paneLines
          with _ | target
        · simp [Scripts.main, hstdin, hw, MainOut.noop]
        · have hmain : Scripts.main env = Scripts.mainAfterWindow env target := by
            simp [Scripts.main, hstdin, hw]
          rw [hmain]
          unfold Scripts.mainAfterWindow
          by_cases hc0 : (Scripts.read_transcript env.transcript).1 = 0
          · simp [hc0, MainOut.noop]
          · rw [if_neg hc0]
            rw [if_neg hc0] at h
            by_cases hc1 : (Scripts.read_transcript env.transcript).1 > 1 ∧
                (Scripts.read_transcript env.transcript).1 % 3 ≠ 0
            · simp [hc1, MainOut.noop]
            · rw [if_neg hc1] at h
              exact absurd h (by simp)

/-- Witness for C1: a transcript with two user turns is denied by the gate,
and the invocation issues no rename. -/
theorem cadence_gate_period3_witness :
    (Scripts.main scriptsTwoTurnsEnv).renames = [] :=
  cadence_gate_period3.2.2 scriptsTwoTurnsEnv (by decide)

/-! ## C2 — the pane-matching loop of the Window Locator -/

/-- Reading a whitespace-free prefix accumulates it (reversed) into the
current word. -/
theorem splitWsAux_word (w : Str) (hw : ∀ c ∈ w, isWs c = false) :
    ∀ s acc, splitWsAux (w ++ s) acc = splitWsAux s (w.reverse ++ acc) := by
  induction w with
  | nil => intro s acc; simp
  | cons a w' ih =>
    intro s acc
    have ha : isWs a = false := hw a (List.mem_cons_self a w')
    have hw' : ∀ c ∈ w', isWs c = false := fun c hc => hw c (List.mem_cons_of_mem a hc)
    show splitWsAux (a :: (w' ++ s)) acc = _
    rw [splitWsAux, ha]
    simp only [Bool.false_eq_true, if_false]
    rw [ih hw' s (a :: acc)]
    congr 1
    simp

/-- Splitting a single whitespace-free word yields that word. -/
theorem splitWs_single (t : Str) (ht : t ≠ []) (hall : ∀ c ∈ t, isWs c = false) :
    splitWs t = [t] := by
  have h := splitWsAux_word t hall [] []
  rw [List.append_nil] at h
  rw [splitWs, h, splitWsAux]
  simp [ht]

/-- Splitting `word ++ ' ' ++ word` yields the two words. -/
theorem splitWs_pair (w t : Str) (hw : w ≠ []) (ht : t ≠ [])
    (hallw : ∀ c ∈ w, isWs c = false) (hallt : ∀ c ∈ t, isWs c = false) :
    splitWs (w ++ ' ' :: t) = [w, t] := by
  rw [splitWs, splitWsAux_word w hallw (' ' :: t) [], List.append_nil, splitWsAux]
  have hws : isWs ' ' = true := by decide
  rw [hws]
  simp only [if_true]
  have hrev : w.reverse ≠ [] := by simpa using hw
  rw [if_neg hrev, List.reverse_reverse]
  have h2 : splitWsAux t [] = [t] := by
    have := splitWs_single t ht hallt
    rwa [splitWs] at this
  rw [h2]

/-- The pane-matching loop on well-formed `list-panes` output lines returns
the second field of the first matching pane. -/
theorem findPane_map_paneLine :
    ∀ (panes : List (Str × Str)) (k : Str), (∀ p ∈ panes, wfPane p) →
      findPane (panes.map paneLine) k
        = (panes.find? (fun p => p.1 = k)).map (fun p => p.2) := by
  intro panes k hwf
  induction panes with
  | nil => simp [findPane]
  | cons p ps ih =>
    obtain ⟨h1, h2, h3, h4⟩ := hwf p (List.mem_cons_self p ps)
    have hps : ∀ q ∈ ps, wfPane q := fun q hq => hwf q (List.mem_cons_of_mem p hq)
    rw [List.map_cons]
    show findPane (paneLine p :: List.map paneLine ps) k = _
    rw [findPane, paneLine, splitWs_pair p.1 p.2 h1 h2 h3 h4]
    show (if p.1 = k then some p.2 else findPane (List.map paneLine ps) k) = _
    by_cases hk : p.1 = k
    · rw [if_pos hk, List.find?_cons_of_pos _ (by simpa using hk)]
      rfl
    · rw [if_neg hk, List.find?_cons_of_neg _ (by simpa using hk)]
      exact ih hps

/-- C2: on every well-formed pane listing, the Window Locator's matching
loop returns the `session:window` identifier of the first pane (in query
order) whose handle exactly equals the caller's handle, and no target when
no pane's handle equals it. -/
theorem window_locator_first_match (panes : List (Str × Str)) (k : Str)
    (hwf : ∀ p ∈ panes, wfPane p) :
    findPane (panes.map paneLine) k
        = (panes.find? (fun p => p.1 = k)).map (fun p => p.2) ∧
      ((∀ p ∈ panes, p.1 ≠ k) → findPane (panes.map paneLine) k = none) := by
  refine ⟨findPane_map_paneLine panes k hwf, fun hno => ?_⟩
  rw [findPane_map_paneLine panes k hwf, List.find?_eq_none.mpr ?_]
  · rfl
  · intro p hp
    simpa using hno p hp

/-- Witness for C2, the specification's worked example: among panes
`/dev/pts/3 sessA:@1` and `/dev/pts/7 sessA:@2`, the caller handle
`/dev/pts/7` resolves to `sessA:@2`. -/
theorem window_locator_first_match_witness :
    findPane (panesEx.map paneLine) "/dev/pts/7".toList
      = some "sessA:@2".toList := by
  rw [(window_locator_first_match panesEx "/dev/pts/7".toList (by decide)).1]
  decide

/-! ## C7, C8, C10 — the Transcript Reader -/

/-- Unrolling the `read_transcript` loop over parsed entries: the final
count adds one per `user`-typed entry, and the recorded questions are the
per-entry extractions in order. -/
theorem read_transcript_go_entries (entries : List Scripts.Entry) :
    ∀ (cnt : Nat) (qs : List Str),
      Scripts.read_transcript_go (entries.map Scripts.TLine.entry) cnt qs =
        (cnt + entries.countP (fun e => e.etype = userRole),
         lastN 5 (qs ++ entries.filterMap Scripts.entryQuestion)) := by
  induction entries with
  | nil =>
    intro cnt qs
    simp [Scripts.read_transcript_go]
  | cons e es ih =>
    intro cnt qs
    rw [List.map_cons]
    show Scripts.read_transcript_go (.entry e :: List.map Scripts.TLine.entry es) cnt qs = _
    rw [Scripts.read_transcript_go]
    by_cases hu : e.etype = userRole
    · rw [if_pos hu]
      by_cases htext : Scripts.extractText e.content = []
      · rw [if_pos htext, ih,
          List.countP_cons_of_pos _ _ (by simpa using hu),
          List.filterMap_cons_none (by simp [Scripts.entryQuestion, hu, htext])]
        refine Prod.ext ?_ rfl
        simp only []
        omega
      · rw [if_neg htext, ih,
          List.countP_cons_of_pos _ _ (by simpa using hu),
          List.filterMap_cons_some
            (show Scripts.entryQuestion e
                = some ((Scripts.extractText e.content).take 200) by
              simp [Scripts.entryQuestion, hu, htext])]
        refine Prod.ext ?_ ?_
        · simp only []
          omega
        · simp
    · rw [if_neg hu, ih,
        List.countP_cons_of_neg _ _ (by simpa using hu),
        List.filterMap_cons_none (by simp [Scripts.entryQuestion, hu])]

/-- Unrolling the root variant's `extract_user_questions` loop. -/
theorem extract_user_questions_go_spec (conversation : List Root.RootMsg) :
    ∀ qs : List Str,
      Root.extract_user_questions_go conversation qs =
        lastN 3 (qs ++ conversation.flatMap Root.msgTexts) := by
  induction conversation with
  | nil =>
    intro qs
    simp [Root.extract_user_questions_go]
  | cons m rest ih =>
    intro qs
    rw [Root.extract_user_questions_go, ih, List.flatMap_cons, List.append_assoc]

set_option maxRecDepth 40000 in
/-- Counterexample for C7: the specification's reader description extracts
a 201-character plain-string user turn untruncated, but the scripts
variant's `read_transcript` truncates plain-string content to 200
characters as well. -/
theorem transcript_reader_claim_counterexample :
    claimReader [⟨userRole, Content.str longText⟩] ≠
      Scripts.read_transcript
        (some [Scripts.TLine.entry ⟨userRole, Content.str longText⟩]) := by
  decide

/-- C7 as amended: in the scripts variant, `read_transcript` counts the
`user`-typed entries and returns, with that count, the most recent five
non-empty extracted texts oldest-to-newest, where every extracted text
(plain strings included) is truncated to its first 200 characters and a
block list is space-joined rather than concatenated; the root variant's
`extract_user_questions` returns no count and collects the most recent
three non-empty stripped texts of individual text-typed blocks of
`user`-role turns, untruncated, with plain-string content contributing
nothing. -/
theorem transcript_reader_decomposition :
    (∀ entries : List Scripts.Entry,
      Scripts.read_transcript (some (entries.map Scripts.TLine.entry)) =
        (entries.countP (fun e => e.etype = userRole),
         lastN 5 (entries.filterMap Scripts.entryQuestion))) ∧
    (∀ conversation : List Root.RootMsg,
      Root.extract_user_questions conversation =
        lastN 3 (conversation.flatMap Root.msgTexts)) := by
  constructor
  · intro entries
    show Scripts.read_transcript_go (entries.map Scripts.TLine.entry) 0 [] = _
    rw [read_transcript_go_entries entries 0 []]
    simp
  · intro conversation
    show Root.extract_user_questions_go conversation [] = _
    rw [extract_user_questions_go_spec conversation []]
    simp

/-- A parse failure aborts the loop and returns what was accumulated. -/
theorem read_transcript_go_append_bad (pre : List Scripts.Entry) :
    ∀ (rest : List Scripts.TLine) (cnt : Nat) (qs : List Str),
      Scripts.read_transcript_go
          (pre.map Scripts.TLine.entry ++ Scripts.TLine.bad :: rest) cnt qs =
        Scripts.read_transcript_go (pre.map Scripts.TLine.entry) cnt qs := by
  induction pre with
  | nil =>
    intro rest cnt qs
    simp [Scripts.read_transcript_go]
  | cons e es ih =>
    intro rest cnt qs
    rw [List.map_cons, List.cons_append]
    show Scripts.read_transcript_go (.entry e :: _) cnt qs
        = Scripts.read_transcript_go (.entry e :: _) cnt qs
    rw [Scripts.read_transcript_go, Scripts.read_transcript_go]
    by_cases hu : e.etype = userRole
    · rw [if_pos hu, if_pos hu]
      by_cases htext : Scripts.extractText e.content = []
      · rw [if_pos htext, if_pos htext, ih]
      · rw [if_neg htext, if_neg htext, ih]
    · rw [if_neg hu, if_neg hu, ih]

/-- Counterexample for C8: a transcript whose second line is unparseable
does not produce `(0, [])` — the one user turn read before the failure is
kept, so the Reader reports count 1 with its text. -/
theorem read_transcript_midfile_counterexample :
    Scripts.read_transcript
        (some [Scripts.TLine.entry ⟨userRole, Content.str "hello".toList⟩,
               Scripts.TLine.bad])
        = (1, ["hello".toList]) ∧
      ((1, ["hello".toList]) : Nat × List Str) ≠ (0, []) := by
  constructor <;> decide

/-- C8 as amended: if the transcript cannot be opened the Reader produces
`(0, [])` (hence also when the failure happens before any entry parses);
a parse failure midway instead stops the loop and returns the user-turn
count and texts accumulated from the lines before the failure, without
raising. -/
theorem read_transcript_failure_behavior :
    Scripts.read_transcript none = (0, []) ∧
    (∀ (pre : List Scripts.Entry) (rest : List Scripts.TLine),
      Scripts.read_transcript
          (some (pre.map Scripts.TLine.entry ++ Scripts.TLine.bad :: rest)) =
        Scripts.read_transcript (some (pre.map Scripts.TLine.entry))) := by
  refine ⟨rfl, fun pre rest => ?_⟩
  show Scripts.read_transcript_go _ 0 [] = Scripts.read_transcript_go _ 0 []
  exact read_transcript_go_append_bad pre rest 0 []

/-! ## C10 — the user-turn count dominates the returned texts -/

/-- Invariant of the `read_transcript` loop: when the accumulated questions
never outnumber the accumulated count, the final texts never outnumber the
final count. -/
theorem read_transcript_go_texts_le (lines : List Scripts.TLine) :
    ∀ (cnt : Nat) (qs : List Str), qs.length ≤ cnt →
      (Scripts.read_transcript_go lines cnt qs).2.length ≤
        (Scripts.read_transcript_go lines cnt qs).1 := by
  induction lines with
  | nil =>
    intro cnt qs h
    simp only [Scripts.read_transcript_go]
    have hl : (lastN 5 qs).length ≤ qs.length := by
      simp only [lastN, List.length_drop]
      omega
    exact hl.trans h
  | cons line rest ih =>
    cases line with
    | blank =>
      intro cnt qs h
      rw [Scripts.read_transcript_go]
      exact ih cnt qs h
    | bad =>
      intro cnt qs h
      rw [Scripts.read_transcript_go]
      have hl : (lastN 5 qs).length ≤ qs.length := by
        simp only [lastN, List.length_drop]
        omega
      exact hl.trans h
    | entry e =>
      intro cnt qs h
      rw [Scripts.read_transcript_go]
      by_cases hu : e.etype = userRole
      · rw [if_pos hu]
        by_cases ht : Scripts.extractText e.content = []
        · rw [if_pos ht]
          exact ih (cnt + 1) qs (by omega)
        · rw [if_neg ht]
          refine ih (cnt + 1) (qs ++ [(Scripts.extractText e.content).take 200]) ?_
          simp only [List.length_append, List.length_cons, List.length_nil]
          omega
      · rw [if_neg hu]
        exact ih cnt qs h

/-- C10: the scripts variant counts every `user`-typed entry whether or not
it yields text, so the returned user-turn count always dominates the number
of returned texts; in particular a single user turn with empty content gives
count 1 with no texts, a count the cadence gate permits — and the prompt
built from an empty question list carries no user-message section. -/
theorem user_count_dominates_texts :
    (∀ t : Option (List Scripts.TLine),
      (Scripts.read_transcript t).2.length ≤ (Scripts.read_transcript t).1) ∧
    (Scripts.read_transcript
        (some [Scripts.TLine.entry ⟨userRole, Content.str []⟩]) = (1, []) ∧
      Scripts.gate 1 = true) ∧
    (∀ (cwd : Str) (ow : List Str),
      Scripts.promptSections cwd ow [] =
        [Scripts.projectLine cwd]
          ++ (if ow = [] then [] else [Scripts.tabsLine ow])) := by
  refine ⟨?_, by decide, ?_⟩
  · intro t
    cases t with
    | none => simp [Scripts.read_transcript]
    | some lines => exact read_transcript_go_texts_le lines 0 [] (by simp)
  · intro cwd ow
    simp [Scripts.promptSections]

/-! ## C3 — zero user turns and the rename decision -/

/-- Counterexample for C3: a root-variant invocation whose conversation has
zero user turns still issues a rename when window resolution and the API
call succeed — the root variant has no cadence gate. -/
theorem root_renames_on_zero_user_turns :
    Root.extract_user_questions [] = [] ∧
    rootZeroTurnsEnv.stdin = some [] ∧
    (Root.main rootZeroTurnsEnv).renames
        = [("sessA:@1".toList, "hello world".toList)] ∧
    (Root.main rootZeroTurnsEnv).renames ≠ [] := by
  refine ⟨rfl, rfl, by decide, by decide⟩

/-- C3 as amended: in the scripts variant — the variant with a Cadence
Gate — every invocation whose transcript yields zero user turns exits
before renaming, so no rename command is issued; the root variant lacks a
gate and may rename even on a zero-user-turn conversation. -/
theorem scripts_no_rename_on_zero_user_turns (env : Scripts.Env)
    (h : (Scripts.read_transcript env.transcript).1 = 0) :
    (Scripts.main env).renames = [] := by
  rcases hstdin : env.stdin with _ | tp
  · simp [Scripts.main, hstdin, MainOut.noop]
  · rcases tp with _ | path
    · simp [Scripts.main, hstdin, MainOut.noop]
    · rcases hw : Scripts.get_tmux_window env.tmux env.tmuxPane env.paneLines
        with _ | target
      · simp [Scripts.main, hstdin, hw, MainOut.noop]
      · have hmain : Scripts.main env = Scripts.mainAfterWindow env target := by
          simp [Scripts.main, hstdin, hw]
        rw [hmain]
        unfold Scripts.mainAfterWindow
        simp [h, MainOut.noop]

/-- Witness for the amended C3: a concrete scripts-variant invocation with
an empty transcript issues no rename. -/
theorem scripts_no_rename_on_zero_user_turns_witness :
    (Scripts.main scriptsZeroTurnsEnv).renames = [] :=
  scripts_no_rename_on_zero_user_turns scriptsZeroTurnsEnv (by decide)

/-! ## C4, C9 — failure absorption and the single-rename invariant -/

/-- When the credential is missing or the request fails, the root variant's
`call_openai_responses` produces no name and no numeric cost. -/
theorem call_openai_responses_fail (qs : List Str) (key : Option Str)
    (net : NetOutcome) (h : apiFailure key net) :
    (Root.call_openai_responses qs key net).name = none ∧
      (Root.call_openai_responses qs key net).cost = false := by
  rcases key with _ | k
  · exact ⟨rfl, rfl⟩
  · rcases h with h | h
    · simp at h
    · cases net with
      | ok content => simp [NetOutcome.isFail] at h
      | httpErr code bodyMsg => exact ⟨rfl, rfl⟩
      | urlErr => exact ⟨rfl, rfl⟩
      | timeoutErr => exact ⟨rfl, rfl⟩
      | badBody => exact ⟨rfl, rfl⟩

/-- On every failure except a non-2xx response whose body substitutes a
falsy error message, the reported error text is truthy (the fixed texts
and the default HTTP text are nonempty). -/
theorem call_openai_responses_error_truthy (qs : List Str) (key : Option Str)
    (net : NetOutcome) (h : apiFailure key net)
    (hm : net.emptyHttpMsg = false) :
    truthy (Root.call_openai_responses qs key net).error = true := by
  rcases key with _ | k
  · show truthy (some Root.keyNotSetMsg) = true
    decide
  · rcases h with h | h
    · simp at h
    · cases net with
      | ok content => simp [NetOutcome.isFail] at h
      | httpErr code bodyMsg =>
        cases bodyMsg with
        | none =>
          show truthy (some ('H' :: ("TTP ".toList ++ (toString code).toList))) = true
          simp [truthy]
        | some m =>
          have hm' : m ≠ [] := by
            intro e
            subst e
            simp [NetOutcome.emptyHttpMsg] at hm
          show truthy (some m) = true
          simp [truthy, hm']
      | urlErr =>
        show truthy (some Root.urlErrMsg) = true
        decide
      | timeoutErr =>
        show truthy (some Root.timeoutMsg) = true
        decide
      | badBody =>
        show truthy (some Root.badBodyMsg) = true
        decide

/-- When the credential is missing or the request fails, the scripts
variant's `call_openai` returns `None`. -/
theorem scripts_call_openai_fail (qs ow : List Str) (cwd : Str)
    (key : Option Str) (net : NetOutcome) (h : apiFailure key net) :
    Scripts.call_openai qs ow cwd key net = none := by
  rcases key with _ | k
  · rfl
  · rcases h with h | h
    · simp at h
    · cases net with
      | ok content => simp [NetOutcome.isFail] at h
      | httpErr code bodyMsg => rfl
      | urlErr => rfl
      | timeoutErr => rfl
      | badBody => rfl

/-- The post-API stage of the root variant issues at most one rename on
every path (error logged, crash in `log_cost`, or rename attempt). -/
theorem root_mainWithApi_renames_le (target : Str) (res : Root.ApiResult) :
    (Root.mainWithApi target res).renames.length ≤ 1 := by
  unfold Root.mainWithApi
  split
  · simp
  · split
    · simp
    · show (if Root.sanitize_name (res.name.getD []) = [] then []
          else [(target, Root.sanitize_name (res.name.getD []))]).length ≤ 1
      split <;> simp

/-- The root variant's modelled `main` issues at most one rename. -/
theorem root_main_renames_le (env : Root.Env) :
    (Root.main env).renames.length ≤ 1 := by
  unfold Root.main
  split
  · simp [MainOut.noop]
  · unfold Root.mainWithWindow
    split
    · simp
    · unfold Root.mainWithHook
      exact root_mainWithApi_renames_le _ _

/-- The last stage of the scripts variant exits 0 and issues at most one
rename. -/
theorem scripts_mainAfterGate_shape (env : Scripts.Env) (target : Str)
    (questions : List Str) :
    (Scripts.mainAfterGate env target questions).exitCode = 0 ∧
      (Scripts.mainAfterGate env target questions).renames.length ≤ 1 := by
  unfold Scripts.mainAfterGate
  split
  · exact ⟨rfl, by simp [MainOut.noop]⟩
  · split
    · exact ⟨rfl, by simp [MainOut.noop]⟩
    · refine ⟨rfl, ?_⟩
      show (if Scripts.sanitize_name _ = [] then []
          else [(target, Scripts.sanitize_name _)]).length ≤ 1
      split <;> simp

/-- The scripts variant's modelled `main` always exits 0 and issues at most
one rename: every internal failure is absorbed. -/
theorem scripts_main_shape (env : Scripts.Env) :
    (Scripts.main env).exitCode = 0 ∧ (Scripts.main env).renames.length ≤ 1 := by
  unfold Scripts.main
  split
  · exact ⟨rfl, by simp [MainOut.noop]⟩
  · exact ⟨rfl, by simp [MainOut.noop]⟩
  · split
    · exact ⟨rfl, by simp [MainOut.noop]⟩
    · unfold Scripts.mainAfterWindow
      split
      · exact ⟨rfl, by simp [MainOut.noop]⟩
      · split
        · exact ⟨rfl, by simp [MainOut.noop]⟩
        · exact scripts_mainAfterGate_shape env _ _

/-- C4, settled as a code bug: on every modelled failure of the
text-generation call, neither variant issues a rename and the scripts
variant exits 0; the root variant also exits 0 for every failure except a
non-2xx response whose parsed body substitutes a falsy error message —
there `if error:` is skipped, `main` proceeds with `name = None`, and
`log_cost` formats `cost=None`, an uncaught `TypeError`, so the detached
process exits nonzero, as the concrete failing input shows — against the
specification's stated policy that no failure propagates to a non-zero
exit. -/
theorem api_failure_no_rename_and_crash :
    (∀ re : Root.Env, apiFailure re.key re.net → (Root.main re).renames = []) ∧
    (∀ se : Scripts.Env, apiFailure se.key se.net →
      (Scripts.main se).renames = [] ∧ (Scripts.main se).exitCode = 0) ∧
    (∀ re : Root.Env, apiFailure re.key re.net → re.net.emptyHttpMsg = false →
      (Root.main re).exitCode = 0) ∧
    (apiFailure rootEmptyHttpMsgEnv.key rootEmptyHttpMsgEnv.net ∧
      (Root.main rootEmptyHttpMsgEnv).exitCode = 1 ∧
      (Root.main rootEmptyHttpMsgEnv).renames = []) := by
  refine ⟨?_, ?_, ?_, ⟨Or.inr rfl, by decide, by decide⟩⟩
  · intro re hf
    unfold Root.main
    split
    · rfl
    · unfold Root.mainWithWindow
      split
      · rfl
      · rename_i target conversation heq
        unfold Root.mainWithHook Root.mainWithApi
        obtain ⟨hname, hcost⟩ := call_openai_responses_fail
          (Root.extract_user_questions conversation) re.key re.net hf
        by_cases htr : truthy (Root.call_openai_responses
            (Root.extract_user_questions conversation) re.key re.net).error = true
        · rw [if_pos htr]
        · rw [if_neg htr, hname, hcost]
          rfl
  · intro se hf
    refine ⟨?_, (scripts_main_shape se).1⟩
    unfold Scripts.main
    split
    · rfl
    · rfl
    · split
      · rfl
      · rename_i target heq
        unfold Scripts.mainAfterWindow
        split
        · rfl
        · split
          · rfl
          · unfold Scripts.mainAfterGate
            rw [scripts_call_openai_fail _ _ _ se.key se.net hf]
            rfl
  · intro re hf hm
    unfold Root.main
    split
    · rfl
    · unfold Root.mainWithWindow
      split
      · rfl
      · rename_i target conversation heq
        unfold Root.mainWithHook Root.mainWithApi
        rw [if_pos (call_openai_responses_error_truthy
          (Root.extract_user_questions conversation) re.key re.net hf hm)]

/-- Witness for C4: with the credential unset, the root variant issues no
rename and exits 0; with a timed-out request, the scripts variant issues no
rename and exits 0. -/
theorem api_failure_no_rename_and_crash_witness :
    (Root.main rootNoKeyEnv).renames = [] ∧
    ((Scripts.main scriptsTimeoutEnv).renames = [] ∧
      (Scripts.main scriptsTimeoutEnv).exitCode = 0) ∧
    (Root.main rootNoKeyEnv).exitCode = 0 :=
  ⟨api_failure_no_rename_and_crash.1 rootNoKeyEnv (Or.inl rfl),
   api_failure_no_rename_and_crash.2.1 scriptsTimeoutEnv (Or.inr rfl),
   api_failure_no_rename_and_crash.2.2.1 rootNoKeyEnv (Or.inl rfl) rfl⟩

/-- C9: on every combination of inputs — stdin, transcript, environment,
pane listing, external-call outcome — each variant issues at most one
rename command per invocation (the crash path issues none). -/
theorem at_most_one_rename (re : Root.Env) (se : Scripts.Env) :
    (Root.main re).renames.length ≤ 1 ∧
      (Scripts.main se).renames.length ≤ 1 :=
  ⟨root_main_renames_le re, (scripts_main_shape se).2⟩
